import Mathlib

/-!
Verification of the zxing-js/browser scanning core against its specification.

The development shallowly embeds the relevant parts of the source:

* `HTMLCanvasElementLuminanceSource.toGrayscaleBuffer` — pure pixel arithmetic
  over RGBA byte buffers (`src/HTMLCanvasElementLuminanceSource.ts`).
* `HTMLCanvasElementLuminanceSource.crop` / `isCropSupported` /
  `isRotateSupported` — the crop method is a self-recursive call, embedded as a
  call-stack-depth-indexed function.
* `HTMLCanvasElementLuminanceSource.rotate` — the output-raster sizing and the
  centered draw transform, over exact reals (idealising the JS double-precision
  trigonometry).
* `BrowserCodeReader.listVideoInputDevices` — device filtering/labelling.
* `BrowserCodeReader.disposeMediaStream` and the `decodeFromStream` finalize
  closure — media-stream teardown.
* `BrowserCodeReader.scan` — the scan loop, its `stop` closure and timer
  bookkeeping, embedded as a small-step machine driven by external events
  (timer firings carrying a decode outcome, and external `stop()` calls), plus
  the `scanOneResult` wrapper callback.
-/

namespace ZxingBrowser

/-! ## Luminance extraction (`HTMLCanvasElementLuminanceSource.toGrayscaleBuffer`) -/

/-- Storing a value into a `Uint8ClampedArray` clamps it to `[0, 255]`.
The computed grays are naturals, so only the upper clamp can act. -/
def uint8ClampStore (v : Nat) : Nat := min v 255

/-- Per-pixel gray value, from `toGrayscaleBuffer` (lines 30-52 of
`HTMLCanvasElementLuminanceSource.ts`): fully transparent pixels become `0xFF`;
otherwise `(306*R + 601*G + 117*B + 0x200) >> 10`. -/
def grayPixel (r g b a : Nat) : Nat :=
  if a = 0 then 0xFF
  else (306 * r + 601 * g + 117 * b + 0x200) >>> 10

/-- The loop of `toGrayscaleBuffer`: consume the flat RGBA buffer four bytes at
a time (`i += 4`), producing one gray per pixel.  A trailing fragment of fewer
than four bytes corresponds to a buffer that is not whole-pixel RGBA and
produces no further complete write. -/
def grayscaleChunks : List Nat → List Nat
  | r :: g :: b :: a :: rest => uint8ClampStore (grayPixel r g b a) :: grayscaleChunks rest
  | _ => []

/-- `toGrayscaleBuffer(imageBuffer, width, height)`: the output
`Uint8ClampedArray(width * height)` starts zero-filled; writes land at
`j = 0, 1, ...` while `j` is in range. -/
def toGrayscaleBuffer (imageBuffer : List Nat) (width height : Nat) : List Nat :=
  let chunks := grayscaleChunks imageBuffer
  chunks.take (width * height) ++ List.replicate (width * height - chunks.length) 0

theorem grayscaleChunks_length : (l : List Nat) → (grayscaleChunks l).length = l.length / 4
  | r :: g :: b :: a :: rest => by
    simp only [grayscaleChunks, List.length_cons, grayscaleChunks_length rest]
    omega
  | [] => by simp [grayscaleChunks]
  | [r] => by simp [grayscaleChunks]
  | [r, g] => by simp [grayscaleChunks]
  | [r, g, b] => by simp [grayscaleChunks]

theorem grayscaleChunks_getElem (l : List Nat) (j : Nat) (hj : 4 * j + 3 < l.length) :
    (grayscaleChunks l).getD j 0 =
      uint8ClampStore (grayPixel (l.getD (4 * j) 0) (l.getD (4 * j + 1) 0)
        (l.getD (4 * j + 2) 0) (l.getD (4 * j + 3) 0)) := by
  induction j generalizing l with
  | zero =>
    match l, hj with
    | r :: g :: b :: a :: rest, _ => simp [grayscaleChunks]
  | succ j ih =>
    match l, hj with
    | r :: g :: b :: a :: rest, hj =>
      have hr : 4 * j + 3 < rest.length := by
        simp only [List.length_cons] at hj; omega
      have h4 : 4 * (j + 1) = 4 * j + 4 := by ring
      simp only [grayscaleChunks, List.getD_cons_succ, h4]
      exact ih rest hr

theorem toGrayscaleBuffer_length (imageBuffer : List Nat) (width height : Nat) :
    (toGrayscaleBuffer imageBuffer width height).length = width * height := by
  simp only [toGrayscaleBuffer, List.length_append, List.length_take, List.length_replicate]
  omega

theorem toGrayscaleBuffer_getElem (imageBuffer : List Nat) (width height j : Nat)
    (hlen : imageBuffer.length = 4 * (width * height)) (hj : j < width * height) :
    (toGrayscaleBuffer imageBuffer width height).getD j 0 =
      uint8ClampStore (grayPixel (imageBuffer.getD (4 * j) 0) (imageBuffer.getD (4 * j + 1) 0)
        (imageBuffer.getD (4 * j + 2) 0) (imageBuffer.getD (4 * j + 3) 0)) := by
  have hcl : (grayscaleChunks imageBuffer).length = width * height := by
    rw [grayscaleChunks_length, hlen]; omega
  have hidx : 4 * j + 3 < imageBuffer.length := by omega
  have htake : (toGrayscaleBuffer imageBuffer width height) = grayscaleChunks imageBuffer := by
    simp [toGrayscaleBuffer, hcl, List.take_of_length_le (le_of_eq hcl)]
  rw [htake]
  exact grayscaleChunks_getElem imageBuffer j hidx

theorem grayPixel_le_255 (r g b a : Nat) (hr : r ≤ 255) (hg : g ≤ 255) (hb : b ≤ 255) :
    grayPixel r g b a ≤ 255 := by
  unfold grayPixel
  split
  · norm_num
  · have hbound : 306 * r + 601 * g + 117 * b + 0x200 ≤ 1024 * 255 + 512 := by omega
    rw [Nat.shiftRight_eq_div_pow]
    omega

theorem listGetD_le_255 (l : List Nat) (i : Nat) (h : ∀ x ∈ l, x ≤ 255) :
    l.getD i 0 ≤ 255 := by
  rcases lt_or_ge i l.length with h1 | h1
  · rw [List.getD_eq_getElem?_getD, List.getElem?_eq_getElem h1]
    exact h _ (List.getElem_mem h1)
  · rw [List.getD_eq_default _ _ h1]
    norm_num

/-- C5: for every RGBA pixel of the input buffer, the grayscale conversion
yields `0xFF` when alpha is `0` and `(306*R + 601*G + 117*B + 0x200) >> 10`
otherwise; pure red maps to 76, pure white to 255 and pure black to 0. -/
theorem toGrayscaleBuffer_pixel_formula (imageBuffer : List Nat) (width height j : Nat)
    (hbytes : ∀ x ∈ imageBuffer, x ≤ 255)
    (hlen : imageBuffer.length = 4 * (width * height)) (hj : j < width * height) :
    ((toGrayscaleBuffer imageBuffer width height).getD j 0 =
      if imageBuffer.getD (4 * j + 3) 0 = 0 then 0xFF
      else (306 * imageBuffer.getD (4 * j) 0 + 601 * imageBuffer.getD (4 * j + 1) 0 +
            117 * imageBuffer.getD (4 * j + 2) 0 + 0x200) >>> 10)
    ∧ toGrayscaleBuffer [255, 0, 0, 255] 1 1 = [76]
    ∧ toGrayscaleBuffer [255, 255, 255, 255] 1 1 = [255]
    ∧ toGrayscaleBuffer [0, 0, 0, 255] 1 1 = [0] := by
  refine ⟨?_, by decide, by decide, by decide⟩
  rw [toGrayscaleBuffer_getElem imageBuffer width height j hlen hj]
  have hle : grayPixel (imageBuffer.getD (4 * j) 0) (imageBuffer.getD (4 * j + 1) 0)
      (imageBuffer.getD (4 * j + 2) 0) (imageBuffer.getD (4 * j + 3) 0) ≤ 255 :=
    grayPixel_le_255 _ _ _ _ (listGetD_le_255 _ _ hbytes) (listGetD_le_255 _ _ hbytes)
      (listGetD_le_255 _ _ hbytes)
  rw [uint8ClampStore, min_eq_left hle]
  rfl

/-- Witness for C5 at a concrete one-pixel pure-red buffer. -/
theorem toGrayscaleBuffer_pixel_formula_red :
    (toGrayscaleBuffer [255, 0, 0, 255] 1 1).getD 0 0 = 76 := by
  have h := toGrayscaleBuffer_pixel_formula [255, 0, 0, 255] 1 1 0
    (by decide) (by decide) (by decide)
  rw [h.1]
  decide

/-- C10 (implicit): the output has exactly `width * height` entries, and every
computed intensity already lies in `[0, 255]` — the weights sum to `1024`, so
the `Uint8ClampedArray` store clamp never acts on a byte-valued input. -/
theorem toGrayscaleBuffer_size_and_range (imageBuffer : List Nat) (width height : Nat)
    (r g b a : Nat) (hr : r ≤ 255) (hg : g ≤ 255) (hb : b ≤ 255) :
    (toGrayscaleBuffer imageBuffer width height).length = width * height
    ∧ 306 + 601 + 117 = 1024
    ∧ grayPixel r g b a ≤ 255
    ∧ uint8ClampStore (grayPixel r g b a) = grayPixel r g b a := by
  have hle := grayPixel_le_255 r g b a hr hg hb
  exact ⟨toGrayscaleBuffer_length imageBuffer width height, rfl, hle,
    by rw [uint8ClampStore, min_eq_left hle]⟩

/-- Witness for C10 at a concrete pixel. -/
theorem toGrayscaleBuffer_size_and_range_red :
    uint8ClampStore (grayPixel 255 0 0 255) = grayPixel 255 0 0 255 :=
  (toGrayscaleBuffer_size_and_range [] 0 0 255 0 0 255 (by decide) (by decide) (by decide)).2.2.2

/-! ## `HTMLCanvasElementLuminanceSource.crop` and the support flags -/

/-- `crop` (`HTMLCanvasElementLuminanceSource.ts` lines 79-87).  Its whole body
is `this.crop(left, top, width, height); return this;` — an unconditional
self-call with unchanged arguments.  The embedding indexes the call by the
available call-stack depth: a result of `none` means the call did not return
within that depth; `some ()` would mean the self-call returned and `this` was
returned to the caller. -/
def crop : Nat → Int → Int → Int → Int → Option Unit
  | 0, _, _, _, _ => none
  | depth + 1, left, top, width, height =>
    match crop depth left top width height with
    | some _ => some ()
    | none => none

/-- `isCropSupported` (lines 120-122) returns `true`. -/
def isCropSupported : Bool := true

/-- `isRotateSupported` (lines 134-136) returns `true`. -/
def isRotateSupported : Bool := true

/-- C6 (code bug): `crop` never returns at any finite call-stack depth — the
self-recursion diverges for every crop rectangle — even though
`isCropSupported` and `isRotateSupported` both report `true`. -/
theorem crop_never_returns (depth : Nat) (left top width height : Int) :
    crop depth left top width height = none
    ∧ isCropSupported = true ∧ isRotateSupported = true := by
  refine ⟨?_, rfl, rfl⟩
  induction depth with
  | zero => rfl
  | succ n ih => simp [crop, ih]

/-! ## Device enumeration (`BrowserCodeReader.listVideoInputDevices`) -/

/-- A `MediaDeviceInfo` as the enumeration loop reads it.  `id` is the
non-standard `(device as any).id` fallback field. -/
structure DeviceInfo where
  deviceId : String
  id : String
  label : String
  kind : String
  groupId : String
deriving DecidableEq

/-- The accumulator loop of `listVideoInputDevices` (lines 365-380): normalize
a reported kind of "video" to "videoinput", skip every other kind, fall back
on `id` for an empty `deviceId`, and label unlabeled devices
`Video device <videoDevices.length + 1>`.  JS `||` treats the empty string as
falsy. -/
def listVideoInputDevicesGo : List DeviceInfo → List DeviceInfo → List DeviceInfo
  | [], videoDevices => videoDevices
  | device :: rest, videoDevices =>
    let kind := if device.kind = "video" then "videoinput" else device.kind
    if kind ≠ "videoinput" then
      listVideoInputDevicesGo rest videoDevices
    else
      let deviceId := if device.deviceId = "" then device.id else device.deviceId
      let label :=
        if device.label = "" then "Video device " ++ toString (videoDevices.length + 1)
        else device.label
      listVideoInputDevicesGo rest (videoDevices ++
        [{ deviceId := deviceId, id := device.id, label := label, kind := kind,
           groupId := device.groupId }])

/-- `listVideoInputDevices`, applied to the device list the platform returned. -/
def listVideoInputDevices (devices : List DeviceInfo) : List DeviceInfo :=
  listVideoInputDevicesGo devices []

/-- The claim, stated in its own words: keep exactly the entries whose kind
normalizes to "videoinput" (a reported kind of "video" is normalized first,
every other kind is excluded), in input order; give every accepted entry whose
reported label is empty the label "Video device N" where N is its 1-based
position among the accepted video devices. -/
def listVideoInputDevicesSpec (devices : List DeviceInfo) : List DeviceInfo :=
  ((devices.filter fun d => d.kind == "video" || d.kind == "videoinput").enum).map fun p =>
    { deviceId := if p.2.deviceId = "" then p.2.id else p.2.deviceId
      id := p.2.id
      label := if p.2.label = "" then "Video device " ++ toString (p.1 + 1) else p.2.label
      kind := "videoinput"
      groupId := p.2.groupId }

theorem listVideoInputDevicesGo_spec (devices : List DeviceInfo) :
    ∀ acc : List DeviceInfo,
      listVideoInputDevicesGo devices acc =
        acc ++ (List.enumFrom acc.length
            (devices.filter fun d => d.kind == "video" || d.kind == "videoinput")).map fun p =>
          { deviceId := if p.2.deviceId = "" then p.2.id else p.2.deviceId
            id := p.2.id
            label := if p.2.label = "" then "Video device " ++ toString (p.1 + 1) else p.2.label
            kind := "videoinput"
            groupId := p.2.groupId } := by
  induction devices with
  | nil => intro acc; simp [listVideoInputDevicesGo]
  | cons device rest ih =>
    intro acc
    by_cases hacc : device.kind = "video" ∨ device.kind = "videoinput"
    · have hnorm : (if device.kind = "video" then "videoinput" else device.kind) =
          "videoinput" := by
        rcases hacc with h | h <;> simp [h]
      have hb : (device.kind == "video" || device.kind == "videoinput") = true := by
        rcases hacc with h | h <;> simp [h]
      have hnn : ¬ ((if device.kind = "video" then "videoinput" else device.kind) ≠
          "videoinput") := by simp [hnorm]
      simp only [listVideoInputDevicesGo]
      rw [if_neg hnn, List.filter_cons, if_pos hb, ih]
      simp only [List.enumFrom, List.map_cons, List.length_append, List.length_cons,
        List.length_nil, List.append_assoc, List.singleton_append]
      rw [hnorm]
    · have hnv : device.kind ≠ "video" := fun h => hacc (Or.inl h)
      have hnvi : device.kind ≠ "videoinput" := fun h => hacc (Or.inr h)
      have hnorm : (if device.kind = "video" then "videoinput" else device.kind) ≠
          "videoinput" := by simp [hnv, hnvi]
      have hb : (device.kind == "video" || device.kind == "videoinput") = false := by
        simp [hnv, hnvi]
      simp only [listVideoInputDevicesGo]
      rw [if_pos hnorm, List.filter_cons, ih]
      simp [hb]

/-- C9: `listVideoInputDevices` returns exactly the video-input entries (after
normalizing a reported kind of "video"), in input order, labelling every entry
with an empty reported label "Video device N" by its 1-based position among the
accepted video devices. -/
theorem listVideoInputDevices_eq_spec (devices : List DeviceInfo) :
    listVideoInputDevices devices = listVideoInputDevicesSpec devices := by
  rw [listVideoInputDevices, listVideoInputDevicesSpec, listVideoInputDevicesGo_spec]
  simp [List.enum]

/-! ## Media-stream teardown (`disposeMediaStream` and `decodeFromStream`) -/

/-- A video track of a `MediaStream`; `stopped` records whether `track.stop()`
has been called on it. -/
structure MediaStreamTrack where
  stopped : Bool
deriving DecidableEq

/-- `track.stop()`. -/
def MediaStreamTrack.stop (t : MediaStreamTrack) : MediaStreamTrack :=
  { t with stopped := true }

/-- The video tracks of a `MediaStream`. -/
structure MediaStream where
  videoTracks : List MediaStreamTrack
deriving DecidableEq

/-- `disposeMediaStream` (lines 550-553): `stream.getVideoTracks().forEach((x)
=> x.stop())`. -/
def disposeMediaStream (stream : MediaStream) : MediaStream :=
  { stream with videoTracks := stream.videoTracks.map MediaStreamTrack.stop }

/-- The preview element: `srcObject` holds the attached stream, if any. -/
structure VideoElement where
  srcObject : Option MediaStream
deriving DecidableEq

/-- `cleanVideoSource` (lines 402-419): detaches the element's source. -/
def cleanVideoSource (video : VideoElement) : VideoElement :=
  { video with srcObject := none }

/-- The finalize closure that `decodeFromStream` (lines 691-698) installs for
the session over the caller-supplied stream: it is run by `stop()` on the
returned controls and on a fatal decode error, and it calls
`disposeMediaStream` on that stream before detaching the preview element. -/
def decodeFromStreamFinalize (stream : MediaStream) (video : VideoElement) :
    MediaStream × VideoElement :=
  (disposeMediaStream stream, cleanVideoSource video)

/-- C2 (code bug): tearing down a `decodeFromStream` session stops the video
tracks of the caller-supplied stream — here a stream with one live track ends
up with that track stopped — while also detaching the preview source.  This
contradicts the teardown contract (and the source's own comment that a
caller-received stream is not the session's to dispose). -/
theorem decodeFromStreamFinalize_stops_caller_stream :
    (decodeFromStreamFinalize { videoTracks := [{ stopped := false }] }
        { srcObject := some { videoTracks := [{ stopped := false }] } }).1.videoTracks =
      [{ stopped := true }]
    ∧ (decodeFromStreamFinalize { videoTracks := [{ stopped := false }] }
        { srcObject := some { videoTracks := [{ stopped := false }] } }).2.srcObject = none :=
  ⟨rfl, rfl⟩

/-! ## The scan loop (`BrowserCodeReader.scan`, lines 1022-1101)

One scan session is embedded as a small-step machine.  The mutable closure
state of `scan` (`stopScan`, `lastTimeoutId`, the capture canvas, the number of
`finalizeCallback` invocations, and — for `scanOneResult` — the wrapping
promise) forms `ScanState`.  The session is driven by events: a scheduled
timer firing (carrying the decode outcome the environment produces on that
tick) or an external `stop()` call on the returned controls.  The per-tick
callback may itself call `controls.stop()` and settle the one-shot promise;
this effect is part of the session configuration. -/

/-- The exception classes the loop distinguishes (`NotFoundException`,
`ChecksumException`, `FormatException`, anything else). -/
inductive ErrKind
  | notFound
  | checksum
  | format
  | other
deriving DecidableEq

/-- A thrown error: its class plus a payload distinguishing error values. -/
structure ScanErr where
  kind : ErrKind
  code : Nat
deriving DecidableEq

/-- What one tick's capture-and-decode produces: a decoded result, or a throw.
`atCapture` records whether the throw came from `drawImageOnCanvas` (before
`decodeFromCanvas` ran) or from the decode itself. -/
inductive Outcome
  | ok (result : Nat)
  | fail (atCapture : Bool) (e : ScanErr)
deriving DecidableEq

/-- Observable actions of a session, in execution order. -/
inductive Action
  | capture
  | decode
  | callback (result : Option Nat) (error : Option ScanErr)
  | schedule (delay : Nat)
  | finalize (error : Option ScanErr)
deriving DecidableEq

/-- What the per-tick callback does when invoked: whether it calls
`controls.stop()` before returning, and whether it settles the wrapping
promise (used by `scanOneResult`). -/
structure CbEffect where
  callsStop : Bool
  settle : Option (Sum Nat ScanErr)
deriving DecidableEq

/-- A session configuration: the two delays from `IBrowserCodeReaderOptions`,
whether a `finalizeCallback` was passed to `scan`, and the per-tick callback's
behaviour. -/
structure ScanConfig where
  delayBetweenScanSuccess : Nat
  delayBetweenScanAttempts : Nat
  hasFinalize : Bool
  cb : Option Nat → Option ScanErr → CbEffect

/-- The mutable state captured by the closures of one `scan` call, plus the
`scanOneResult` promise. -/
structure ScanState where
  stopScan : Bool
  pending : Nat
  disposed : Bool
  finalizeCount : Nat
  promise : Option (Sum Nat ScanErr)
deriving DecidableEq

/-- The state before `scan` runs its first `loop()`. -/
def initState : ScanState :=
  { stopScan := false, pending := 0, disposed := false, finalizeCount := 0, promise := none }

/-- A callback that only observes (continuous decode with a plain callback). -/
def continuousCb : Option Nat → Option ScanErr → CbEffect :=
  fun _ _ => { callsStop := false, settle := none }

/-- The callback `scanOneResult` (lines 988-1010) passes to `scan`: resolve and
stop on a result; on an error, return (retry) when the error's class has its
retry flag set, otherwise stop and reject. -/
def oneShotCb (retryIfNotFound retryIfChecksumError retryIfFormatError : Bool) :
    Option Nat → Option ScanErr → CbEffect :=
  fun result error =>
    match result with
    | some r => { callsStop := true, settle := some (Sum.inl r) }
    | none =>
      match error with
      | some e =>
        if e.kind = ErrKind.notFound ∧ retryIfNotFound then
          { callsStop := false, settle := none }
        else if e.kind = ErrKind.checksum ∧ retryIfChecksumError then
          { callsStop := false, settle := none }
        else if e.kind = ErrKind.format ∧ retryIfFormatError then
          { callsStop := false, settle := none }
        else
          { callsStop := true, settle := some (Sum.inr e) }
      | none => { callsStop := false, settle := none }

/-- Which classes the loop itself retries (lines 1081-1089). -/
def isRetryable : ErrKind → Bool
  | ErrKind.notFound => true
  | ErrKind.checksum => true
  | ErrKind.format => true
  | ErrKind.other => false

/-- A promise settles at most once; later settlements are ignored. -/
def settleOnce (p : Option (Sum Nat ScanErr)) (a : Option (Sum Nat ScanErr)) :
    Option (Sum Nat ScanErr) :=
  match p with
  | some x => some x
  | none => a

/-- The `stop` closure (lines 1054-1059): set `stopScan`, clear the tracked
timeout, dispose the canvas, and — unconditionally — run the finalize callback
when one was given.  There is no already-stopped guard. -/
def stopClosure (cfg : ScanConfig) (s : ScanState) : ScanState × List Action :=
  ({ s with
      stopScan := true
      pending := 0
      disposed := true
      finalizeCount := s.finalizeCount + (if cfg.hasFinalize then 1 else 0) },
   if cfg.hasFinalize then [Action.finalize none] else [])

/-- One execution of `loop` (lines 1065-1095), given the outcome the capture
and decode produce on this tick.  If `stopScan` is set the body returns at
once.  Otherwise: draw, decode, invoke the callback (applying its settle/stop
effects), then either schedule the next tick (success or retryable error) or
dispose the canvas and run the finalize callback with the error (fatal). -/
def loopTick (cfg : ScanConfig) (s : ScanState) (o : Outcome) : ScanState × List Action :=
  if s.stopScan then (s, [])
  else
    match o with
    | Outcome.ok r =>
      let eff := cfg.cb (some r) none
      let s1 := { s with promise := settleOnce s.promise eff.settle }
      let sc := if eff.callsStop then stopClosure cfg s1 else (s1, [])
      ({ sc.1 with pending := sc.1.pending + 1 },
       Action.capture :: Action.decode :: Action.callback (some r) none ::
         (sc.2 ++ [Action.schedule cfg.delayBetweenScanSuccess]))
    | Outcome.fail atCapture e =>
      let eff := cfg.cb none (some e)
      let s1 := { s with promise := settleOnce s.promise eff.settle }
      let sc := if eff.callsStop then stopClosure cfg s1 else (s1, [])
      let pre := Action.capture :: (if atCapture then [] else [Action.decode]) ++
        (Action.callback none (some e) :: sc.2)
      if isRetryable e.kind then
        ({ sc.1 with pending := sc.1.pending + 1 },
         pre ++ [Action.schedule cfg.delayBetweenScanAttempts])
      else
        ({ sc.1 with
            disposed := true
            finalizeCount := sc.1.finalizeCount + (if cfg.hasFinalize then 1 else 0) },
         pre ++ (if cfg.hasFinalize then [Action.finalize (some e)] else []))

/-- An external event a live session can receive. -/
inductive Ev
  | fire (o : Outcome)
  | stop
deriving DecidableEq

/-- One step: a timer firing consumes the pending timer and runs `loop`; an
external `stop()` call runs the `stop` closure. -/
def scanStep (cfg : ScanConfig) (s : ScanState) : Ev → ScanState × List Action
  | Ev.fire o => loopTick cfg { s with pending := s.pending - 1 } o
  | Ev.stop => stopClosure cfg s

/-- Run a list of events, accumulating the trace. -/
def scanRun (cfg : ScanConfig) (s : ScanState) : List Ev → ScanState × List Action
  | [] => (s, [])
  | ev :: evs =>
    let st := scanStep cfg s ev
    let rest := scanRun cfg st.1 evs
    (rest.1, st.2 ++ rest.2)

/-- A whole session: `scan` runs `loop()` synchronously once (line 1098) — the
first tick with outcome `o` — and then the session reacts to events. -/
def scanSession (cfg : ScanConfig) (o : Outcome) (evs : List Ev) : ScanState × List Action :=
  let first := loopTick cfg initState o
  let rest := scanRun cfg first.1 evs
  (rest.1, first.2 ++ rest.2)

/-- The callback effect a tick with outcome `o` triggers. -/
def cbEffectOf (cfg : ScanConfig) : Outcome → CbEffect
  | Outcome.ok r => cfg.cb (some r) none
  | Outcome.fail _ e => cfg.cb none (some e)

/-- Whether the loop classifies the outcome as fatal (lines 1081-1093). -/
def isFatal : Outcome → Bool
  | Outcome.ok _ => false
  | Outcome.fail _ e => !(isRetryable e.kind)

/-- How many finalize invocations one tick processed while running triggers:
one if the callback calls `controls.stop()`, plus one if the outcome is
fatal. -/
def tickFinalizes (cfg : ScanConfig) (o : Outcome) : Nat :=
  (if (cbEffectOf cfg o).callsStop then 1 else 0) + (if isFatal o then 1 else 0)

/-- The number of finalize invocations an event list produces, given whether
`stopScan` is already set: every external `stop()` finalizes again; a tick
fired while running finalizes per `tickFinalizes` and leaves `stopScan` set
exactly when the callback called stop; ticks fired after `stopScan` do
nothing. -/
def expectedFinalizes (cfg : ScanConfig) : Bool → List Ev → Nat
  | _, [] => 0
  | stopped, Ev.stop :: evs =>
    (if cfg.hasFinalize then 1 else 0) + expectedFinalizes cfg (stopped || true) evs
  | true, Ev.fire _ :: evs => expectedFinalizes cfg true evs
  | false, Ev.fire o :: evs =>
    (if cfg.hasFinalize then tickFinalizes cfg o else 0)
    + expectedFinalizes cfg (cbEffectOf cfg o).callsStop evs

theorem loopTick_stopped (cfg : ScanConfig) (s : ScanState) (o : Outcome)
    (h : s.stopScan = true) : loopTick cfg s o = (s, []) := by
  simp [loopTick, h]

theorem stopClosure_state (cfg : ScanConfig) (s : ScanState) :
    (stopClosure cfg s).1.stopScan = true
    ∧ (stopClosure cfg s).1.pending = 0
    ∧ (stopClosure cfg s).1.promise = s.promise
    ∧ (stopClosure cfg s).1.finalizeCount
        = s.finalizeCount + (if cfg.hasFinalize then 1 else 0) :=
  ⟨rfl, rfl, rfl, rfl⟩

theorem loopTick_running (cfg : ScanConfig) (s : ScanState) (o : Outcome)
    (h : s.stopScan = false) :
    (loopTick cfg s o).1.finalizeCount
        = s.finalizeCount + (if cfg.hasFinalize then tickFinalizes cfg o else 0)
    ∧ (loopTick cfg s o).1.stopScan = (cbEffectOf cfg o).callsStop := by
  rcases o with r | ⟨atC, e⟩
  · by_cases hc : (cfg.cb (some r) none).callsStop
    · simp [loopTick, h, stopClosure, tickFinalizes, cbEffectOf, isFatal, hc]
    · simp [loopTick, h, stopClosure, tickFinalizes, cbEffectOf, isFatal, hc]
  · by_cases hc : (cfg.cb none (some e)).callsStop
    · by_cases hr : isRetryable e.kind
      · simp [loopTick, h, stopClosure, tickFinalizes, cbEffectOf, isFatal, hc, hr]
      · by_cases hf : cfg.hasFinalize <;>
          simp [loopTick, h, stopClosure, tickFinalizes, cbEffectOf, isFatal, hc, hr, hf]
    · by_cases hr : isRetryable e.kind
      · simp [loopTick, h, stopClosure, tickFinalizes, cbEffectOf, isFatal, hc, hr]
      · simp [loopTick, h, stopClosure, tickFinalizes, cbEffectOf, isFatal, hc, hr]

theorem scanRun_finalizeCount (cfg : ScanConfig) :
    ∀ (evs : List Ev) (s : ScanState),
      (scanRun cfg s evs).1.finalizeCount
        = s.finalizeCount + expectedFinalizes cfg s.stopScan evs := by
  intro evs
  induction evs with
  | nil => intro s; simp [scanRun, expectedFinalizes]
  | cons ev evs ih =>
    intro s
    rcases ev with o | _
    · cases hs : s.stopScan
      · have hrun : ({ s with pending := s.pending - 1 } : ScanState).stopScan = false := hs
        have hlt := loopTick_running cfg { s with pending := s.pending - 1 } o hrun
        simp only [scanRun, scanStep, ih]
        rw [hlt.1, hlt.2]
        simp [expectedFinalizes, hs]
        omega
      · have heq := loopTick_stopped cfg { s with pending := s.pending - 1 } o hs
        simp only [scanRun, scanStep, heq, ih]
        simp [expectedFinalizes, hs]
    · have hsc := stopClosure_state cfg s
      simp only [scanRun, scanStep, ih]
      rw [hsc.1, hsc.2.2.2]
      cases hs : s.stopScan <;> simp [expectedFinalizes, hs] <;> omega

theorem loopTick_pending (cfg : ScanConfig) (s : ScanState) (o : Outcome)
    (h : s.pending = 0) : (loopTick cfg s o).1.pending ≤ 1 := by
  by_cases hs : s.stopScan
  · simp [loopTick_stopped cfg s o hs, h]
  · rcases o with r | ⟨atC, e⟩
    · by_cases hc : (cfg.cb (some r) none).callsStop <;>
        simp [loopTick, hs, stopClosure, hc, h]
    · by_cases hc : (cfg.cb none (some e)).callsStop <;>
        by_cases hr : isRetryable e.kind <;>
        simp [loopTick, hs, stopClosure, hc, hr, h]

theorem scanStep_pending (cfg : ScanConfig) (s : ScanState) (ev : Ev)
    (h : s.pending ≤ 1) : (scanStep cfg s ev).1.pending ≤ 1 := by
  rcases ev with o | _
  · have hz : ({ s with pending := s.pending - 1 } : ScanState).pending = 0 := by
      simp; omega
    exact loopTick_pending cfg _ o hz
  · simp [scanStep, stopClosure]

theorem scanRun_pending (cfg : ScanConfig) :
    ∀ (evs : List Ev) (s : ScanState),
      s.pending ≤ 1 → (scanRun cfg s evs).1.pending ≤ 1 := by
  intro evs
  induction evs with
  | nil => intro s h; simpa [scanRun] using h
  | cons ev evs ih =>
    intro s h
    simp only [scanRun]
    exact ih _ (scanStep_pending cfg s ev h)

theorem scanRun_stopped_inert (cfg : ScanConfig) :
    ∀ (evs : List Ev) (s : ScanState), s.stopScan = true →
      (scanRun cfg s evs).1.stopScan = true
      ∧ (scanRun cfg s evs).1.promise = s.promise
      ∧ ∀ a ∈ (scanRun cfg s evs).2, ∃ e, a = Action.finalize e := by
  intro evs
  induction evs with
  | nil => intro s h; simp [scanRun, h]
  | cons ev evs ih =>
    intro s h
    rcases ev with o | _
    · have heq := loopTick_stopped cfg { s with pending := s.pending - 1 } o h
      have ihr := ih { s with pending := s.pending - 1 } h
      simp only [scanRun, scanStep, heq]
      exact ⟨ihr.1, ihr.2.1, by simpa using ihr.2.2⟩
    · have hsc := stopClosure_state cfg s
      have ihr := ih (stopClosure cfg s).1 hsc.1
      simp only [scanRun, scanStep]
      refine ⟨ihr.1, by rw [ihr.2.1, hsc.2.2.1], ?_⟩
      intro a ha
      rw [List.mem_append] at ha
      rcases ha with ha | ha
      · simp only [stopClosure] at ha
        rcases hf : cfg.hasFinalize with _ | _
        · rw [hf] at ha; simp at ha
        · rw [hf] at ha; simp at ha
          exact ⟨none, ha⟩
      · exact ihr.2.2 a ha

/-- A continuous-decode session configuration with a finalize callback and the
default delays (`defaultOptions`, lines 20-24). -/
def contCfg : ScanConfig :=
  { delayBetweenScanSuccess := 500
    delayBetweenScanAttempts := 500
    hasFinalize := true
    cb := continuousCb }

/-- C1 counterexample: a session whose first tick misses (`NotFoundException`)
and which then receives two `stop()` calls runs its finalize callback twice —
the `stop` closure has no already-stopped guard — refuting "invokes the
finalize callback exactly once in total". -/
theorem scan_stop_twice_finalizes_twice :
    (scanSession contCfg (Outcome.fail false { kind := ErrKind.notFound, code := 0 })
        [Ev.stop, Ev.stop]).1.finalizeCount = 2
    ∧ (scanSession contCfg (Outcome.fail false { kind := ErrKind.notFound, code := 0 })
        [Ev.stop, Ev.stop]).1.finalizeCount ≠ 1 := by
  refine ⟨rfl, ?_⟩
  intro h
  simp [scanSession, scanRun, scanStep, loopTick, stopClosure, contCfg, continuousCb,
    initState] at h

/-- C1 corrected: `stop()` always moves the session to the terminal stopped
state (the flag is absorbing), but each `stop()` call runs the finalize
callback again: over a whole session the finalize callback runs once per
`stop()` call plus once per fatal tick processed while running — so exactly
once overall only when there is exactly one such occasion, not for any number
of `stop()` calls. -/
theorem scan_stop_absorbing_finalize_count (cfg : ScanConfig) (s : ScanState) (ev : Ev)
    (o : Outcome) (evs : List Ev) :
    ((stopClosure cfg s).1.stopScan = true
      ∧ (stopClosure cfg s).1.finalizeCount
          = s.finalizeCount + (if cfg.hasFinalize then 1 else 0))
    ∧ (s.stopScan = true → (scanStep cfg s ev).1.stopScan = true)
    ∧ (scanSession cfg o evs).1.finalizeCount
        = (if cfg.hasFinalize then tickFinalizes cfg o else 0)
          + expectedFinalizes cfg (cbEffectOf cfg o).callsStop evs := by
  refine ⟨⟨rfl, rfl⟩, ?_, ?_⟩
  · intro h
    rcases ev with o2 | _
    · have heq := loopTick_stopped cfg { s with pending := s.pending - 1 } o2 h
      simp only [scanStep, heq]
      exact h
    · exact (stopClosure_state cfg s).1
  · have hfirst := loopTick_running cfg initState o rfl
    simp only [scanSession]
    rw [scanRun_finalizeCount, hfirst.1, hfirst.2]
    simp [initState]

/-- Witness for C1's corrected statement: the absorbing part applied to an
already-stopped concrete state. -/
theorem scan_stop_absorbing_finalize_count_inst :
    (scanStep contCfg
        { stopScan := true, pending := 0, disposed := true, finalizeCount := 1,
          promise := none } Ev.stop).1.stopScan = true :=
  (scan_stop_absorbing_finalize_count contCfg
    { stopScan := true, pending := 0, disposed := true, finalizeCount := 1, promise := none }
    Ev.stop (Outcome.ok 0) []).2.1 rfl

/-- C4: at most one scheduled tick is ever pending in a session, and a tick
whose timer fires after `stop()` was called returns without capturing,
decoding, invoking the callback, or scheduling anything (its trace is empty
and the state is untouched apart from consuming the fired timer). -/
theorem scan_single_pending_and_stale_tick (cfg : ScanConfig) (o : Outcome)
    (evs : List Ev) (s : ScanState) (o2 : Outcome) :
    (scanSession cfg o evs).1.pending ≤ 1
    ∧ (s.stopScan = true →
        (scanStep cfg s (Ev.fire o2)).2 = []
        ∧ (scanStep cfg s (Ev.fire o2)).1 = { s with pending := s.pending - 1 }) := by
  constructor
  · have hfirst : (loopTick cfg initState o).1.pending ≤ 1 :=
      loopTick_pending cfg initState o rfl
    simp only [scanSession]
    exact scanRun_pending cfg evs _ hfirst
  · intro h
    have heq := loopTick_stopped cfg { s with pending := s.pending - 1 } o2 h
    simp [scanStep, heq]

/-- Witness for C4 at a concrete stopped state and a concrete session. -/
theorem scan_single_pending_and_stale_tick_inst :
    (scanStep contCfg
        { stopScan := true, pending := 1, disposed := true, finalizeCount := 1,
          promise := none } (Ev.fire (Outcome.ok 3))).2 = [] :=
  ((scan_single_pending_and_stale_tick contCfg (Outcome.ok 0) []
    { stopScan := true, pending := 1, disposed := true, finalizeCount := 1, promise := none }
    (Outcome.ok 3)).2 rfl).1

/-- Is the action a per-tick-callback invocation? -/
def Action.isCallbackAct : Action → Bool
  | Action.callback _ _ => true
  | _ => false

/-- Is the action the scheduling of a next tick? -/
def Action.isScheduleAct : Action → Bool
  | Action.schedule _ => true
  | _ => false

/-- The arguments the per-tick callback receives for an outcome. -/
def callbackOf : Outcome → Action
  | Outcome.ok r => Action.callback (some r) none
  | Outcome.fail _ e => Action.callback none (some e)

/-- C3: on every tick processed while running, the per-tick callback is
invoked exactly once, with `(result, undefined)` on success and
`(undefined, error)` on a throw, and it is invoked before any rescheduling
decision; a success schedules the next tick after `delayBetweenScanSuccess`,
a retryable decode error (`NotFound`/`Checksum`/`Format`) after
`delayBetweenScanAttempts`, and any other throw (from decode or capture)
schedules nothing and runs the finalize callback with that error. -/
theorem scan_tick_callback_contract (cfg : ScanConfig) (s : ScanState) (o : Outcome)
    (h : s.stopScan = false) :
    ((loopTick cfg s o).2.countP Action.isCallbackAct = 1)
    ∧ callbackOf o ∈ (loopTick cfg s o).2
    ∧ (∃ rest, (loopTick cfg s o).2.filter
          (fun a => Action.isCallbackAct a || Action.isScheduleAct a) = callbackOf o :: rest
        ∧ rest.all Action.isScheduleAct)
    ∧ (match o with
       | Outcome.ok _ => (loopTick cfg s o).2.filter Action.isScheduleAct
            = [Action.schedule cfg.delayBetweenScanSuccess]
       | Outcome.fail _ e =>
         if isRetryable e.kind then
           (loopTick cfg s o).2.filter Action.isScheduleAct
             = [Action.schedule cfg.delayBetweenScanAttempts]
         else
           (loopTick cfg s o).2.filter Action.isScheduleAct = []
           ∧ (cfg.hasFinalize = true → Action.finalize (some e) ∈ (loopTick cfg s o).2)) := by
  rcases o with r | ⟨atC, e⟩
  · by_cases hc : (cfg.cb (some r) none).callsStop <;>
      by_cases hf : cfg.hasFinalize <;>
      simp [loopTick, h, stopClosure, hc, hf, callbackOf,
        Action.isCallbackAct, Action.isScheduleAct, List.countP_cons, List.countP_append]
  · by_cases hc : (cfg.cb none (some e)).callsStop <;>
      by_cases hf : cfg.hasFinalize <;>
      by_cases hr : isRetryable e.kind <;>
      rcases atC with _ | _ <;>
      simp [loopTick, h, stopClosure, hc, hf, hr, callbackOf,
        Action.isCallbackAct, Action.isScheduleAct, List.countP_cons, List.countP_append]

/-- Witness for C3 at a concrete running tick. -/
theorem scan_tick_callback_contract_inst :
    (loopTick contCfg initState (Outcome.ok 7)).2.countP Action.isCallbackAct = 1 :=
  (scan_tick_callback_contract contCfg initState (Outcome.ok 7) rfl).1

/-- The session configuration `scanOneResult` produces: `scan` is called with
the one-shot callback and no finalize callback. -/
def oneShotConfig (retryIfNotFound retryIfChecksumError retryIfFormatError : Bool) :
    ScanConfig :=
  { delayBetweenScanSuccess := 500
    delayBetweenScanAttempts := 500
    hasFinalize := false
    cb := oneShotCb retryIfNotFound retryIfChecksumError retryIfFormatError }

/-- The `scanOneResult` retry flag governing each retryable error class. -/
def retryFlagFor (retryIfNotFound retryIfChecksumError retryIfFormatError : Bool) :
    ErrKind → Bool
  | ErrKind.notFound => retryIfNotFound
  | ErrKind.checksum => retryIfChecksumError
  | ErrKind.format => retryIfFormatError
  | ErrKind.other => false

/-- C7: in a one-shot scan, a tick whose decode throws one of the three
retryable classes is retried exactly when that class's flag is set: with the
flag set the callback returns without settling and the loop reschedules after
the attempt delay; with the flag clear (e.g. `retryIfNotFound = false` on the
first NotFound outcome) the callback stops the session and rejects the promise
with that error, and no later event can capture, decode, invoke the callback
or change the promise again. -/
theorem scanOneResult_retry_flags (rNF rCE rFE : Bool) (s : ScanState) (e : ScanErr)
    (atC : Bool) (evs : List Ev)
    (hrun : s.stopScan = false) (hp : s.promise = none) (hk : e.kind ≠ ErrKind.other) :
    (retryFlagFor rNF rCE rFE e.kind = true →
      (loopTick (oneShotConfig rNF rCE rFE) s (Outcome.fail atC e)).1.stopScan = false
      ∧ (loopTick (oneShotConfig rNF rCE rFE) s (Outcome.fail atC e)).1.promise = none
      ∧ (loopTick (oneShotConfig rNF rCE rFE) s (Outcome.fail atC e)).2.filter
          Action.isScheduleAct
        = [Action.schedule (oneShotConfig rNF rCE rFE).delayBetweenScanAttempts])
    ∧ (retryFlagFor rNF rCE rFE e.kind = false →
      (loopTick (oneShotConfig rNF rCE rFE) s (Outcome.fail atC e)).1.stopScan = true
      ∧ (loopTick (oneShotConfig rNF rCE rFE) s (Outcome.fail atC e)).1.promise
          = some (Sum.inr e)
      ∧ (scanRun (oneShotConfig rNF rCE rFE)
          (loopTick (oneShotConfig rNF rCE rFE) s (Outcome.fail atC e)).1 evs).1.promise
          = some (Sum.inr e)
      ∧ (scanRun (oneShotConfig rNF rCE rFE)
          (loopTick (oneShotConfig rNF rCE rFE) s (Outcome.fail atC e)).1 evs).2.countP
          (fun a => Action.isCallbackAct a || Action.isScheduleAct a || a == Action.decode
            || a == Action.capture) = 0) := by
  have hretry : isRetryable e.kind = true := by
    rcases e with ⟨k, c⟩
    rcases k with _ | _ | _ | _ <;> simp [isRetryable] at hk ⊢
  have heff : (oneShotConfig rNF rCE rFE).cb none (some e)
      = (if retryFlagFor rNF rCE rFE e.kind then
          { callsStop := false, settle := none }
        else
          { callsStop := true, settle := some (Sum.inr e) } : CbEffect) := by
    rcases e with ⟨k, c⟩
    rcases k with _ | _ | _ | _ <;>
      rcases rNF with _ | _ <;> rcases rCE with _ | _ <;> rcases rFE with _ | _ <;>
      simp [oneShotConfig, oneShotCb, retryFlagFor]
  constructor
  · intro hflag
    rw [hflag] at heff
    simp only [if_true] at heff
    simp [loopTick, hrun, heff, hretry, settleOnce, hp,
      Action.isScheduleAct, Action.isCallbackAct]
  · intro hflag
    rw [hflag] at heff
    simp only [Bool.false_eq_true, if_false] at heff
    have hstate : (loopTick (oneShotConfig rNF rCE rFE) s (Outcome.fail atC e)).1.stopScan = true
        ∧ (loopTick (oneShotConfig rNF rCE rFE) s (Outcome.fail atC e)).1.promise
            = some (Sum.inr e) := by
      simp [loopTick, hrun, heff, hretry, settleOnce, hp, stopClosure]
    have hinert := scanRun_stopped_inert (oneShotConfig rNF rCE rFE) evs
      (loopTick (oneShotConfig rNF rCE rFE) s (Outcome.fail atC e)).1 hstate.1
    refine ⟨hstate.1, hstate.2, by rw [hinert.2.1, hstate.2], ?_⟩
    rw [List.countP_eq_zero]
    intro a ha
    rcases hinert.2.2 a ha with ⟨e2, rfl⟩
    simp [Action.isCallbackAct, Action.isScheduleAct]

/-- Witness for C7: `retryIfNotFound = false`, first tick throws
`NotFoundException` — the promise is rejected with that error. -/
theorem scanOneResult_retry_flags_inst :
    (loopTick (oneShotConfig false true true) initState
        (Outcome.fail false { kind := ErrKind.notFound, code := 5 })).1.promise
      = some (Sum.inr { kind := ErrKind.notFound, code := 5 }) :=
  ((scanOneResult_retry_flags false true true initState
      { kind := ErrKind.notFound, code := 5 } false [Ev.fire (Outcome.ok 3)]
      rfl rfl (by simp)).2 rfl).2.1

/-! ## `HTMLCanvasElementLuminanceSource.rotate` (lines 161-187)

The geometry of `rotate`, over exact reals (idealising the JS double-precision
trigonometry): the secondary raster's dimensions, and the centered draw
transform `translate(newWidth/2, newHeight/2); rotate(angleRadians);
drawImage(canvas, -width/2, -height/2)`.  The canvas draw itself is a platform
primitive; it is modelled as exact point sampling under that affine map. -/

/-- `DEGREE_TO_RADIANS` applied to an angle: `angle * (Math.PI / 180)`. -/
noncomputable def rotateAngleRadians (angle : ℝ) : ℝ := angle * (Real.pi / 180)

/-- `newWidth = Math.ceil(|cos θ| * width + |sin θ| * height)`. -/
noncomputable def rotateNewWidth (angle : ℝ) (width height : ℕ) : ℤ :=
  ⌈|Real.cos (rotateAngleRadians angle)| * width + |Real.sin (rotateAngleRadians angle)| * height⌉

/-- `newHeight = Math.ceil(|sin θ| * width + |cos θ| * height)`. -/
noncomputable def rotateNewHeight (angle : ℝ) (width height : ℕ) : ℤ :=
  ⌈|Real.sin (rotateAngleRadians angle)| * width + |Real.cos (rotateAngleRadians angle)| * height⌉

/-- Rotation of a point about the origin by `θ` (the canvas transform matrix). -/
noncomputable def rotatePoint (θ : ℝ) (p : ℝ × ℝ) : ℝ × ℝ :=
  (p.1 * Real.cos θ - p.2 * Real.sin θ, p.1 * Real.sin θ + p.2 * Real.cos θ)

/-- Where a source-image point lands on the secondary raster: the draw is
offset by `(-width/2, -height/2)`, rotated by `θ`, and translated to the
raster's center. -/
noncomputable def rotateDrawMap (angle : ℝ) (width height : ℕ) (q : ℝ × ℝ) : ℝ × ℝ :=
  ((rotatePoint (rotateAngleRadians angle) (q.1 - width / 2, q.2 - height / 2)).1
      + (rotateNewWidth angle width height : ℝ) / 2,
   (rotatePoint (rotateAngleRadians angle) (q.1 - width / 2, q.2 - height / 2)).2
      + (rotateNewHeight angle width height : ℝ) / 2)

/-- The content of the secondary raster: each raster point samples the source
at the inverse of the draw transform (exact sampling model of `drawImage`). -/
noncomputable def rotatedRaster (angle : ℝ) (width height : ℕ) (src : ℝ × ℝ → ℕ) :
    ℝ × ℝ → ℕ :=
  fun p => src
    ((rotatePoint (-(rotateAngleRadians angle))
        (p.1 - (rotateNewWidth angle width height : ℝ) / 2,
         p.2 - (rotateNewHeight angle width height : ℝ) / 2)).1 + width / 2,
     (rotatePoint (-(rotateAngleRadians angle))
        (p.1 - (rotateNewWidth angle width height : ℝ) / 2,
         p.2 - (rotateNewHeight angle width height : ℝ) / 2)).2 + height / 2)

theorem rotateAngleRadians_ninety : rotateAngleRadians 90 = Real.pi / 2 := by
  rw [rotateAngleRadians]; ring

theorem rotateAngleRadians_zero : rotateAngleRadians 0 = 0 := by
  rw [rotateAngleRadians]; ring

theorem rotateDims_ninety (width height : ℕ) :
    rotateNewWidth 90 width height = height ∧ rotateNewHeight 90 width height = width := by
  rw [rotateNewWidth, rotateNewHeight, rotateAngleRadians_ninety, Real.cos_pi_div_two,
    Real.sin_pi_div_two]
  simp

theorem rotateDims_zero (width height : ℕ) :
    rotateNewWidth 0 width height = width ∧ rotateNewHeight 0 width height = height := by
  rw [rotateNewWidth, rotateNewHeight, rotateAngleRadians_zero, Real.cos_zero, Real.sin_zero]
  simp

theorem rotateDrawMap_no_clip (angle : ℝ) (width height : ℕ) (q : ℝ × ℝ)
    (h1 : 0 ≤ q.1) (h2 : q.1 ≤ width) (h3 : 0 ≤ q.2) (h4 : q.2 ≤ height) :
    0 ≤ (rotateDrawMap angle width height q).1
    ∧ (rotateDrawMap angle width height q).1 ≤ (rotateNewWidth angle width height : ℝ)
    ∧ 0 ≤ (rotateDrawMap angle width height q).2
    ∧ (rotateDrawMap angle width height q).2 ≤ (rotateNewHeight angle width height : ℝ) := by
  dsimp only [rotateDrawMap, rotatePoint, rotateNewWidth, rotateNewHeight]
  generalize rotateAngleRadians angle = θ
  have hx : |q.1 - width / 2| ≤ (width : ℝ) / 2 := by
    rw [abs_le]; constructor <;> linarith
  have hy : |q.2 - height / 2| ≤ (height : ℝ) / 2 := by
    rw [abs_le]; constructor <;> linarith
  have hcW := Int.le_ceil (|Real.cos θ| * width + |Real.sin θ| * height)
  have hcH := Int.le_ceil (|Real.sin θ| * width + |Real.cos θ| * height)
  have habs1 : |(q.1 - width / 2) * Real.cos θ - (q.2 - height / 2) * Real.sin θ|
      ≤ (width : ℝ) / 2 * |Real.cos θ| + (height : ℝ) / 2 * |Real.sin θ| := by
    calc |(q.1 - width / 2) * Real.cos θ - (q.2 - height / 2) * Real.sin θ|
        ≤ |(q.1 - width / 2) * Real.cos θ| + |(q.2 - height / 2) * Real.sin θ| := abs_sub _ _
      _ = |q.1 - width / 2| * |Real.cos θ| + |q.2 - height / 2| * |Real.sin θ| := by
          rw [abs_mul, abs_mul]
      _ ≤ (width : ℝ) / 2 * |Real.cos θ| + (height : ℝ) / 2 * |Real.sin θ| := by
          have := abs_nonneg (Real.cos θ)
          have := abs_nonneg (Real.sin θ)
          gcongr
  have habs2 : |(q.1 - width / 2) * Real.sin θ + (q.2 - height / 2) * Real.cos θ|
      ≤ (width : ℝ) / 2 * |Real.sin θ| + (height : ℝ) / 2 * |Real.cos θ| := by
    calc |(q.1 - width / 2) * Real.sin θ + (q.2 - height / 2) * Real.cos θ|
        ≤ |(q.1 - width / 2) * Real.sin θ| + |(q.2 - height / 2) * Real.cos θ| := abs_add _ _
      _ = |q.1 - width / 2| * |Real.sin θ| + |q.2 - height / 2| * |Real.cos θ| := by
          rw [abs_mul, abs_mul]
      _ ≤ (width : ℝ) / 2 * |Real.sin θ| + (height : ℝ) / 2 * |Real.cos θ| := by
          have := abs_nonneg (Real.cos θ)
          have := abs_nonneg (Real.sin θ)
          gcongr
  have hb1 := abs_le.mp habs1
  have hb2 := abs_le.mp habs2
  refine ⟨?_, ?_, ?_, ?_⟩ <;> [linarith; linarith; linarith; linarith]

theorem rotatedRaster_zero (width height : ℕ) (src : ℝ × ℝ → ℕ) :
    rotatedRaster 0 width height src = src := by
  funext p
  have hW := (rotateDims_zero width height).1
  have hH := (rotateDims_zero width height).2
  rw [rotatedRaster, rotatePoint]
  rw [rotateAngleRadians_zero, neg_zero, Real.cos_zero, Real.sin_zero, hW, hH]
  push_cast
  ring_nf

/-- C8: `rotate` sizes its secondary raster by
`ceil(|cos θ|·W + |sin θ|·H) × ceil(|sin θ|·W + |cos θ|·H)` and draws the
source centered, so every source point lands inside the raster (no clipping);
at 90° the raster is `H × W`, and at 0° the raster has the original dimensions
and reproduces the original grid's values exactly. -/
theorem rotate_raster_geometry (width height : ℕ) (src : ℝ × ℝ → ℕ) (angle : ℝ)
    (q : ℝ × ℝ) (h1 : 0 ≤ q.1) (h2 : q.1 ≤ width) (h3 : 0 ≤ q.2) (h4 : q.2 ≤ height) :
    (rotateNewWidth 90 width height = height ∧ rotateNewHeight 90 width height = width)
    ∧ (rotateNewWidth 0 width height = width ∧ rotateNewHeight 0 width height = height)
    ∧ (0 ≤ (rotateDrawMap angle width height q).1
        ∧ (rotateDrawMap angle width height q).1 ≤ (rotateNewWidth angle width height : ℝ)
        ∧ 0 ≤ (rotateDrawMap angle width height q).2
        ∧ (rotateDrawMap angle width height q).2 ≤ (rotateNewHeight angle width height : ℝ))
    ∧ rotatedRaster 0 width height src = src :=
  ⟨rotateDims_ninety width height, rotateDims_zero width height,
   rotateDrawMap_no_clip angle width height q h1 h2 h3 h4,
   rotatedRaster_zero width height src⟩

/-- Witness for C8 at a 3×5 grid, 90°, source point (1, 2). -/
theorem rotate_raster_geometry_inst :
    0 ≤ (rotateDrawMap 90 3 5 (1, 2)).1 :=
  (rotate_raster_geometry 3 5 (fun _ => 0) 90 (1, 2)
    (by norm_num) (by norm_num) (by norm_num) (by norm_num)).2.2.1.1

end ZxingBrowser
